import Mathlib

/-!
Verification of the QS-Vault offline-first sync engine.

The definitions below are a shallow embedding of the sync engine in
src/frontend/src/lib/database/database.ts (the Dexie sync_queue, the
syncEngine.processQueue drain loop and syncEngine.queueChange) and of the
useSync hook in src/frontend/src (the performSync single-flight guard and
the queryClient.invalidateQueries notification).  Payloads are modelled as
association lists from string keys to opaque string values; the Dexie
tables and the remote store are modelled as association lists keyed by
(table, record id).
-/

namespace QSVault

/-- The four syncable tables, from the SyncQueueItem interface. -/
inductive TableName
  | projects
  | bill_items
  | measurements
  | profiles
deriving DecidableEq, Repr

/-- The three queued operation kinds, from the SyncQueueItem interface. -/
inductive Operation
  | INSERT
  | UPDATE
  | DELETE
deriving DecidableEq, Repr

/-- A field-value snapshot: a JS object modelled as an association list
with first-match lookup semantics.  Values are opaque. -/
abbrev Payload := List (String × String)

/-- First-match lookup of a key in a payload, the JS property read. -/
def lookupField : Payload → String → Option String
  | [], _ => none
  | (k, v) :: rest, key => if k = key then some v else lookupField rest key

/-- JS property write: sets key to value, overwriting any previous binding. -/
def setField (p : Payload) (k v : String) : Payload :=
  (k, v) :: p.filter (fun e => decide (e.1 ≠ k))

/-- The rest-destructuring in processQueue, which drops the amount key
before the upsert: const (amount, ...cleanPayload) = item.payload. -/
def cleanPayload (p : Payload) : Payload :=
  p.filter (fun e => decide (e.1 ≠ "amount"))

/-- A queue entry, from the SyncQueueItem interface.  The id field is the
Dexie auto-increment key (the sequence number of the spec). -/
structure SyncQueueItem where
  id : Nat
  table : TableName
  operation : Operation
  record_id : String
  payload : Payload
  created_at : Nat
deriving DecidableEq, Repr

/-- A keyed record store: rows addressed by (table, record id).  Models
both the local Dexie entity tables and the remote Supabase tables. -/
abbrev Store := List ((TableName × String) × Payload)

/-- Read the row at a key, first match. -/
def storeGet : Store → (TableName × String) → Option Payload
  | [], _ => none
  | (k, v) :: rest, key => if k = key then some v else storeGet rest key

/-- Insert-or-replace the row at a key. -/
def storeSet (s : Store) (key : TableName × String) (p : Payload) : Store :=
  (key, p) :: s.filter (fun e => decide (e.1 ≠ key))

/-- Remove the row at a key; removing an absent key is a no-op. -/
def storeDel (s : Store) (key : TableName × String) : Store :=
  s.filter (fun e => decide (e.1 ≠ key))

/-- The network request built for a queue entry in processQueue: INSERT and
UPDATE both become supabase.from(table).upsert(cleanPayload, onConflict id);
DELETE becomes supabase.from(table).delete().eq(id, record_id). -/
inductive RemoteCall
  | upsert (t : TableName) (p : Payload)
  | delete (t : TableName) (rid : String)
deriving DecidableEq, Repr

/-- Which remote call processQueue issues for a queue entry. -/
def remoteRequest (item : SyncQueueItem) : RemoteCall :=
  match item.operation with
  | Operation.INSERT => RemoteCall.upsert item.table (cleanPayload item.payload)
  | Operation.UPDATE => RemoteCall.upsert item.table (cleanPayload item.payload)
  | Operation.DELETE => RemoteCall.delete item.table item.record_id

/-- Outcome of one remote apply as observed by processQueue: a null error,
a non-null supabase error object, or a thrown exception. -/
inductive ApplyOutcome
  | ok
  | errorResult (msg : String)
  | exception (msg : String)
deriving DecidableEq, Repr

/-- The engine state visible to the sync code: the Dexie sync_queue table
with its auto-increment counter, and the local entity tables. -/
structure EngineState where
  sync_queue : List SyncQueueItem
  nextId : Nat
  localStore : Store
deriving DecidableEq, Repr

/-- The local write on a confirmed apply:
db(table).update(record_id, (synced_at : now)) — Dexie updates the row with
that primary key if present, setting only the given field. -/
def updateSyncedAt (ls : Store) (t : TableName) (rid : String) (now : String) : Store :=
  ls.map (fun en => if en.1 = (t, rid) then (en.1, setField en.2 "synced_at" now) else en)

/-- The success branch of the drain loop (lines 155-166 of database.ts):
delete the entry from sync_queue, then stamp synced_at on the local row. -/
def stepSuccess (st : EngineState) (item : SyncQueueItem) (now : String) : EngineState :=
  { st with
    sync_queue := st.sync_queue.filter (fun q => decide (q.id ≠ item.id)),
    localStore := updateSyncedAt st.localStore item.table item.record_id now }

/-- The for-loop of processQueue over the snapshot of the queue.  The
environment outcome gives the result of each remote apply.  On ok the
success branch runs and the loop continues; on a supabase error or a
thrown exception the loop breaks.  The returned list is the trace of
entries whose remote apply was attempted, in order. -/
def drainLoop (outcome : SyncQueueItem → ApplyOutcome) (now : String) :
    List SyncQueueItem → EngineState → List SyncQueueItem →
    EngineState × List SyncQueueItem
  | [], st, tr => (st, tr)
  | item :: rest, st, tr =>
    match outcome item with
    | ApplyOutcome.ok => drainLoop outcome now rest (stepSuccess st item now) (tr ++ [item])
    | ApplyOutcome.errorResult _ => (st, tr ++ [item])
    | ApplyOutcome.exception _ => (st, tr ++ [item])

/-- Queue order: entries compared by their auto-increment id. -/
def itemLe (a b : SyncQueueItem) : Prop := a.id ≤ b.id

instance : DecidableRel itemLe := fun a b => inferInstanceAs (Decidable (a.id ≤ b.id))

instance : IsTotal SyncQueueItem itemLe := ⟨fun a b => Nat.le_total a.id b.id⟩

instance : IsTrans SyncQueueItem itemLe := ⟨fun _ _ _ h h2 => Nat.le_trans h h2⟩

/-- db.sync_queue.orderBy(id).toArray(): the queue snapshot sorted by id. -/
def sortQueue (l : List SyncQueueItem) : List SyncQueueItem :=
  l.insertionSort itemLe

/-- syncEngine.processQueue: snapshot the queue in id order, return early
when empty, otherwise run the drain loop. -/
def processQueue (outcome : SyncQueueItem → ApplyOutcome) (now : String)
    (st : EngineState) : EngineState × List SyncQueueItem :=
  let queue := sortQueue st.sync_queue
  if queue.isEmpty then (st, [])
  else drainLoop outcome now queue st []

/-- syncEngine.queueChange: await db.sync_queue.add(...) — when the add
fails the awaited rejection propagates out of queueChange — then, when
online, fire processQueue.  addResult carries the failure message of the
Dexie add when it fails. -/
def queueChange (addResult : Option String) (online : Bool)
    (outcome : SyncQueueItem → ApplyOutcome) (nowMs : Nat) (nowIso : String)
    (t : TableName) (id : String) (op : Operation) (data : Payload)
    (st : EngineState) : Except String EngineState :=
  match addResult with
  | some msg => Except.error msg
  | none =>
    let st1 : EngineState :=
      { st with
        sync_queue := st.sync_queue ++ [⟨st.nextId, t, op, id, data, nowMs⟩],
        nextId := st.nextId + 1 }
    if online then Except.ok (processQueue outcome nowIso st1).1 else Except.ok st1

/-- The body of performSync in useSync once its guard has passed: await
processQueue, await resumePausedMutations, then call
queryClient.invalidateQueries once.  The last component counts the
invalidateQueries invocations of the cycle. -/
def performSyncCycle (outcome : SyncQueueItem → ApplyOutcome) (now : String)
    (st : EngineState) : EngineState × List SyncQueueItem × Nat :=
  let r := processQueue outcome now st
  (r.1, r.2, 1)

/-- The drain cycle started directly by queueChange when online: it calls
syncEngine.processQueue and nothing else, so that code path contains zero
invalidateQueries invocations. -/
def enqueueTriggerCycle (outcome : SyncQueueItem → ApplyOutcome) (now : String)
    (st : EngineState) : EngineState × List SyncQueueItem × Nat :=
  let r := processQueue outcome now st
  (r.1, r.2, 0)

/-- Running processQueue n times in a row, concatenating the traces. -/
def iterCycles (outcome : SyncQueueItem → ApplyOutcome) (now : String) :
    Nat → EngineState → EngineState × List SyncQueueItem
  | 0, st => (st, [])
  | n + 1, st =>
    let r := processQueue outcome now st
    let r2 := iterCycles outcome now n r.1
    (r2.1, r.2 ++ r2.2)

/-- The four trigger sources of a drain cycle. -/
inductive TriggerKind
  | onlineTransition
  | periodicTick
  | explicitCall
  | enqueueTime
deriving DecidableEq, Repr

/-- Observable state of the useSync session: the isSyncing flag and the
number of drain cycles currently in flight. -/
structure SyncSession where
  isSyncing : Bool
  activeDrains : Nat
deriving DecidableEq, Repr

/-- performSync in useSync: return immediately when isSyncing or offline,
otherwise set the flag and start a drain cycle. -/
def viaPerformSync (online : Bool) (s : SyncSession) : SyncSession :=
  if s.isSyncing || !online then s
  else { isSyncing := true, activeDrains := s.activeDrains + 1 }

/-- Dispatch of a trigger request.  The online event, the 30s tick and an
explicit call all run performSync and hit its guard; the enqueue-time
trigger in queueChange calls syncEngine.processQueue directly, checking
only navigator.onLine and never the isSyncing flag. -/
def triggerStart (online : Bool) (k : TriggerKind) (s : SyncSession) : SyncSession :=
  match k with
  | TriggerKind.enqueueTime =>
    if online then { s with activeDrains := s.activeDrains + 1 } else s
  | _ => viaPerformSync online s

/-- Modelled from the spec: the Remote Adapter upsert of section 4.4
(the Supabase client is outside this repository).  Upsert is
insert-or-replace keyed by the record id and always acknowledges. -/
def remoteUpsert (s : Store) (t : TableName) (rid : String) (p : Payload) :
    ApplyOutcome × Store :=
  (ApplyOutcome.ok, storeSet s (t, rid) p)

/-- Modelled from the spec: the Remote Adapter delete of section 4.4.
Delete-by-id removes the row when present and succeeds either way. -/
def remoteDelete (s : Store) (t : TableName) (rid : String) :
    ApplyOutcome × Store :=
  (ApplyOutcome.ok, storeDel s (t, rid))

/-- The remote effect of one queue entry, routed as processQueue routes it:
INSERT and UPDATE go to the upsert with the cleaned payload, DELETE to the
delete with the record id. -/
def remoteAdapterApply (s : Store) (e : SyncQueueItem) : ApplyOutcome × Store :=
  match e.operation with
  | Operation.INSERT => remoteUpsert s e.table e.record_id (cleanPayload e.payload)
  | Operation.UPDATE => remoteUpsert s e.table e.record_id (cleanPayload e.payload)
  | Operation.DELETE => remoteDelete s e.table e.record_id

/-- The maximal run at the front of the queue snapshot whose remote apply
succeeds: exactly the entries the drain loop commits before it breaks. -/
def okRun (outcome : SyncQueueItem → ApplyOutcome) (l : List SyncQueueItem) :
    List SyncQueueItem :=
  l.takeWhile (fun e => decide (outcome e = ApplyOutcome.ok))

/-- Folding the success branch of the drain loop over a list of entries. -/
def commitAll (now : String) (items : List SyncQueueItem) (st : EngineState) :
    EngineState :=
  items.foldl (fun s e => stepSuccess s e now) st

/-! Concrete inputs used by witnesses and counterexamples. -/

/-- An INSERT entry on projects. -/
def w1A : SyncQueueItem :=
  ⟨1, TableName.projects, Operation.INSERT, "p1", [("id", "p1"), ("name", "X")], 10⟩

/-- An UPDATE entry on bill_items whose snapshot carries the generated
amount column. -/
def w1B : SyncQueueItem :=
  ⟨2, TableName.bill_items, Operation.UPDATE, "b1",
    [("id", "b1"), ("rate", "40"), ("amount", "360")], 11⟩

/-- A DELETE entry on measurements. -/
def w1C : SyncQueueItem :=
  ⟨3, TableName.measurements, Operation.DELETE, "m1", [], 12⟩

/-- Three pending entries across a mix of tables. -/
def w1St : EngineState := ⟨[w1A, w1B, w1C], 4, []⟩

/-- A remote that accepts every apply. -/
def allOk : SyncQueueItem → ApplyOutcome := fun _ => ApplyOutcome.ok

/-- A remote that rejects every entry from id 2 on. -/
def failFrom2 : SyncQueueItem → ApplyOutcome := fun e =>
  if 2 ≤ e.id then ApplyOutcome.errorResult "boom" else ApplyOutcome.ok

/-- Entry A of the poison scenario: id 1, remote apply fails permanently. -/
def cexA : SyncQueueItem :=
  ⟨1, TableName.projects, Operation.INSERT, "a1", [("id", "a1")], 100⟩

/-- Entry B of the poison scenario: id 2, remote apply would succeed. -/
def cexB : SyncQueueItem :=
  ⟨2, TableName.projects, Operation.INSERT, "b1", [("id", "b1")], 101⟩

/-- The remote of the poison scenario: entry id 1 fails on every attempt,
everything else succeeds. -/
def cexPoisonOutcome : SyncQueueItem → ApplyOutcome := fun e =>
  if e.id = 1 then ApplyOutcome.errorResult "violates row-level security policy"
  else ApplyOutcome.ok

/-- Queue state of the poison scenario: A before B. -/
def cexSt3 : EngineState := ⟨[cexA, cexB], 3, []⟩

/-- Entry whose apply fails transiently, id 1. -/
def w4A : SyncQueueItem :=
  ⟨1, TableName.projects, Operation.UPDATE, "p1", [("id", "p1")], 5⟩

/-- Entry whose apply would succeed, id 2. -/
def w4B : SyncQueueItem :=
  ⟨2, TableName.measurements, Operation.INSERT, "m1", [("id", "m1")], 6⟩

/-- Queue state for the transient-failure scenario. -/
def w4St : EngineState := ⟨[w4A, w4B], 3, []⟩

/-- A remote where entry id 1 fails with a network error, the rest succeed. -/
def w4Outcome : SyncQueueItem → ApplyOutcome := fun e =>
  if e.id = 1 then ApplyOutcome.errorResult "TypeError: Failed to fetch"
  else ApplyOutcome.ok

/-- A single committed entry for the notification scenario. -/
def cex6Item : SyncQueueItem :=
  ⟨1, TableName.projects, Operation.INSERT, "p1", [("id", "p1"), ("name", "X")], 50⟩

/-- Queue state with one pending entry. -/
def cex6St : EngineState := ⟨[cex6Item], 2, []⟩

/-- A DELETE entry aimed at a record absent from the remote store. -/
def w8E : SyncQueueItem :=
  ⟨7, TableName.measurements, Operation.DELETE, "m9", [], 70⟩

/-- A queue entry updating a local row that exists. -/
def e10 : SyncQueueItem :=
  ⟨1, TableName.projects, Operation.UPDATE, "p1", [("id", "p1")], 9⟩

/-- The local row stored for e10. -/
def rec10 : Payload := [("id", "p1"), ("name", "N")]

/-- Engine state holding the local row for e10. -/
def st10 : EngineState := ⟨[], 1, [((TableName.projects, "p1"), rec10)]⟩

/-! General lemmas about the drain loop and the stores. -/

/-- The queue snapshot is a permutation of the stored queue. -/
lemma sortQueue_perm (l : List SyncQueueItem) : (sortQueue l).Perm l :=
  List.perm_insertionSort itemLe l

/-- The queue snapshot is sorted by id. -/
lemma sortQueue_sorted (l : List SyncQueueItem) : List.Sorted itemLe (sortQueue l) :=
  List.sorted_insertionSort itemLe l

/-- processQueue is the drain loop on the sorted snapshot; the early return
on an empty queue coincides with the loop on an empty list. -/
lemma processQueue_eq (outcome : SyncQueueItem → ApplyOutcome) (now : String)
    (st : EngineState) :
    processQueue outcome now st = drainLoop outcome now (sortQueue st.sync_queue) st [] := by
  unfold processQueue
  by_cases h : (sortQueue st.sync_queue).isEmpty
  · rw [List.isEmpty_iff] at h
    simp [h, drainLoop]
  · simp [h]

/-- Entries of the committed run have a confirmed apply. -/
lemma mem_okRun (outcome : SyncQueueItem → ApplyOutcome) {l : List SyncQueueItem}
    {x : SyncQueueItem} (hx : x ∈ okRun outcome l) : outcome x = ApplyOutcome.ok := by
  have := List.mem_takeWhile_imp hx
  simpa using this

/-- The committed run is a subset of the snapshot. -/
lemma okRun_subset (outcome : SyncQueueItem → ApplyOutcome) (l : List SyncQueueItem) :
    okRun outcome l ⊆ l :=
  (List.takeWhile_prefix _).subset

/-- The entry right after the committed run, when it exists, failed. -/
lemma rest_head_not_ok (outcome : SyncQueueItem → ApplyOutcome) :
    ∀ (l : List SyncQueueItem) (x : SyncQueueItem),
      x ∈ (l.drop (okRun outcome l).length).take 1 → ¬outcome x = ApplyOutcome.ok := by
  intro l
  induction l with
  | nil => intro x hx; simp [okRun] at hx
  | cons a l ih =>
    intro x hx
    by_cases h : outcome a = ApplyOutcome.ok
    · have hr : okRun outcome (a :: l) = a :: okRun outcome l := by
        simp [okRun, List.takeWhile_cons, h]
      rw [hr] at hx
      simp only [List.length_cons, List.drop_succ_cons] at hx
      exact ih x hx
    · have hr : okRun outcome (a :: l) = [] := by
        simp [okRun, List.takeWhile_cons, h]
      rw [hr] at hx
      simp at hx
      rw [hx]
      exact h

/-- Closed form of the drain loop: it commits the maximal successful front
run, and the trace is that run followed by the first failing entry if any. -/
lemma drainLoop_eq (outcome : SyncQueueItem → ApplyOutcome) (now : String) :
    ∀ (l : List SyncQueueItem) (st : EngineState) (tr : List SyncQueueItem),
      drainLoop outcome now l st tr =
        (commitAll now (okRun outcome l) st,
         tr ++ okRun outcome l ++ (l.drop (okRun outcome l).length).take 1) := by
  intro l
  induction l with
  | nil => intro st tr; simp [drainLoop, okRun, commitAll]
  | cons item rest ih =>
    intro st tr
    cases h : outcome item with
    | ok =>
      have hr : okRun outcome (item :: rest) = item :: okRun outcome rest := by
        simp [okRun, List.takeWhile_cons, h]
      simp only [drainLoop, h]
      rw [ih, hr]
      simp [commitAll, List.drop_succ_cons]
    | errorResult msg =>
      have hr : okRun outcome (item :: rest) = [] := by
        simp [okRun, List.takeWhile_cons, h]
      simp [drainLoop, h, hr, commitAll]
    | exception msg =>
      have hr : okRun outcome (item :: rest) = [] := by
        simp [okRun, List.takeWhile_cons, h]
      simp [drainLoop, h, hr, commitAll]

/-- Committing a run of entries deletes exactly those ids from sync_queue. -/
lemma commitAll_sync_queue (now : String) :
    ∀ (items : List SyncQueueItem) (st : EngineState),
      (commitAll now items st).sync_queue =
        st.sync_queue.filter (fun q => decide (q.id ∉ items.map SyncQueueItem.id)) := by
  intro items
  induction items with
  | nil => intro st; simp [commitAll]
  | cons a items ih =>
    intro st
    simp only [commitAll, List.foldl_cons] at ih ⊢
    rw [ih]
    show (st.sync_queue.filter fun q => decide (q.id ≠ a.id)).filter _ = _
    rw [List.filter_filter]
    apply List.filter_congr
    intro q _
    by_cases h1 : q.id = a.id <;> by_cases h2 : q.id ∈ items.map SyncQueueItem.id <;>
      simp [h1, h2]

/-- Filtering a key out twice is the same as once. -/
lemma filter_ne_key_idem (s : Store) (key : TableName × String) :
    (s.filter (fun e => decide (e.1 ≠ key))).filter (fun e => decide (e.1 ≠ key)) =
      s.filter (fun e => decide (e.1 ≠ key)) := by
  rw [List.filter_filter]
  simp only [Bool.and_self]

/-- Writing the same row twice leaves the store as after one write. -/
lemma storeSet_idem (s : Store) (key : TableName × String) (p : Payload) :
    storeSet (storeSet s key p) key p = storeSet s key p := by
  simp only [storeSet, List.filter_cons]
  simp [filter_ne_key_idem]

/-- Deleting the same row twice leaves the store as after one delete. -/
lemma storeDel_idem (s : Store) (key : TableName × String) :
    storeDel (storeDel s key) key = storeDel s key :=
  filter_ne_key_idem s key

/-- Deleting an absent row leaves the store unchanged. -/
lemma storeDel_absent {s : Store} {key : TableName × String}
    (h : storeGet s key = none) : storeDel s key = s := by
  induction s with
  | nil => rfl
  | cons e rest ih =>
    obtain ⟨k0, v0⟩ := e
    by_cases hk : k0 = key
    · simp [storeGet, hk] at h
    · have h2 : storeGet rest key = none := by
        simp only [storeGet] at h
        rwa [if_neg hk] at h
      have hcond : (fun e : (TableName × String) × Payload => decide (e.1 ≠ key)) (k0, v0) = true := by
        simp [hk]
      simp only [storeDel] at ih ⊢
      rw [List.filter_cons, if_pos hcond, ih h2]

/-- After filtering out a key, that key no longer resolves. -/
lemma lookupField_filter_self (k : String) :
    ∀ p : Payload, lookupField (p.filter (fun e => decide (e.1 ≠ k))) k = none := by
  intro p
  induction p with
  | nil => rfl
  | cons e rest ih =>
    obtain ⟨k0, v0⟩ := e
    by_cases hk : k0 = k
    · have hcond : ¬((fun e : String × String => decide (e.1 ≠ k)) (k0, v0) = true) := by
        simp [hk]
      rw [List.filter_cons, if_neg hcond]
      exact ih
    · have hcond : (fun e : String × String => decide (e.1 ≠ k)) (k0, v0) = true := by
        simp [hk]
      rw [List.filter_cons, if_pos hcond]
      simp only [lookupField]
      rw [if_neg hk]
      exact ih

/-- Filtering out one key preserves the lookup of every other key. -/
lemma lookupField_filter_other (k k' : String) (h : k' ≠ k) :
    ∀ p : Payload,
      lookupField (p.filter (fun e => decide (e.1 ≠ k))) k' = lookupField p k' := by
  intro p
  induction p with
  | nil => rfl
  | cons e rest ih =>
    obtain ⟨k0, v0⟩ := e
    by_cases hk : k0 = k
    · have hne : ¬k0 = k' := fun hh => h (by rw [← hh, hk])
      have hcond : ¬((fun e : String × String => decide (e.1 ≠ k)) (k0, v0) = true) := by
        simp [hk]
      rw [List.filter_cons, if_neg hcond, ih]
      simp only [lookupField]
      rw [if_neg hne]
    · have hcond : (fun e : String × String => decide (e.1 ≠ k)) (k0, v0) = true := by
        simp [hk]
      rw [List.filter_cons, if_pos hcond]
      simp only [lookupField]
      by_cases hk' : k0 = k'
      · rw [if_pos hk', if_pos hk']
      · rw [if_neg hk', if_neg hk', ih]

/-- Setting a field makes it resolve to the written value. -/
lemma lookupField_setField_same (p : Payload) (k v : String) :
    lookupField (setField p k v) k = some v := by
  simp [setField, lookupField]

/-- Setting one field preserves the lookup of every other field. -/
lemma lookupField_setField_other (p : Payload) (k v k' : String) (h : k' ≠ k) :
    lookupField (setField p k v) k' = lookupField p k' := by
  have hne : ¬k = k' := fun hh => h (hh.symm)
  simp only [setField, lookupField, hne, if_false]
  exact lookupField_filter_other k k' h p

/-- The synced_at stamp rewrites the row stored at the target key. -/
lemma storeGet_updateSyncedAt_same (t : TableName) (rid : String) (now : String)
    (rec : Payload) :
    ∀ ls : Store, storeGet ls (t, rid) = some rec →
      storeGet (updateSyncedAt ls t rid now) (t, rid) =
        some (setField rec "synced_at" now) := by
  intro ls
  induction ls with
  | nil => intro h; simp [storeGet] at h
  | cons e rest ih =>
    obtain ⟨k0, v0⟩ := e
    intro h
    simp only [updateSyncedAt, List.map_cons] at ih ⊢
    by_cases hk : k0 = (t, rid)
    · have hv : v0 = rec := by
        simp only [storeGet] at h
        rw [if_pos hk] at h
        exact Option.some.inj h
      rw [if_pos hk]
      simp only [storeGet]
      rw [if_pos hk, hv]
    · have h2 : storeGet rest (t, rid) = some rec := by
        simp only [storeGet] at h
        rwa [if_neg hk] at h
      rw [if_neg hk]
      simp only [storeGet]
      rw [if_neg hk]
      exact ih h2

/-- The synced_at stamp leaves every other key untouched. -/
lemma storeGet_updateSyncedAt_other (t : TableName) (rid : String) (now : String)
    (key : TableName × String) (hkey : key ≠ (t, rid)) :
    ∀ ls : Store, storeGet (updateSyncedAt ls t rid now) key = storeGet ls key := by
  intro ls
  induction ls with
  | nil => rfl
  | cons e rest ih =>
    obtain ⟨k0, v0⟩ := e
    simp only [updateSyncedAt, List.map_cons] at ih ⊢
    by_cases hk : k0 = (t, rid)
    · have hne : ¬k0 = key := fun hh => hkey (hh ▸ hk)
      rw [if_pos hk]
      simp only [storeGet]
      rw [if_neg hne, if_neg hne]
      exact ih
    · rw [if_neg hk]
      simp only [storeGet]
      by_cases hk' : k0 = key
      · rw [if_pos hk', if_pos hk']
      · rw [if_neg hk', if_neg hk']
        exact ih

/-! The claims. -/

/-- Claim C1: when every remote apply succeeds, a drain cycle applies the
queued entries one at a time in strictly ascending sequence (id) order —
the trace is exactly the id-sorted queue snapshot, a permutation of the
queue — and leaves the sync_queue empty. -/
theorem processQueue_full_drain_ascending
    (outcome : SyncQueueItem → ApplyOutcome) (now : String) (st : EngineState)
    (hnodup : (st.sync_queue.map SyncQueueItem.id).Nodup)
    (hok : ∀ e ∈ sortQueue st.sync_queue, outcome e = ApplyOutcome.ok) :
    (processQueue outcome now st).1.sync_queue = [] ∧
    (processQueue outcome now st).2 = sortQueue st.sync_queue ∧
    ((processQueue outcome now st).2).Perm st.sync_queue ∧
    List.Pairwise (fun a b => a.id < b.id) (processQueue outcome now st).2 := by
  have hperm := sortQueue_perm st.sync_queue
  have hrun : okRun outcome (sortQueue st.sync_queue) = sortQueue st.sync_queue := by
    apply List.takeWhile_eq_self_iff.mpr
    intro x hx
    simp [hok x hx]
  have hmain : processQueue outcome now st =
      (commitAll now (sortQueue st.sync_queue) st, sortQueue st.sync_queue) := by
    rw [processQueue_eq, drainLoop_eq, hrun]
    simp
  rw [hmain]
  refine ⟨?_, rfl, hperm, ?_⟩
  · rw [commitAll_sync_queue, List.filter_eq_nil_iff]
    intro q hq
    simp only [decide_eq_true_eq, not_not]
    exact List.mem_map.mpr ⟨q, hperm.mem_iff.mpr hq, rfl⟩
  · have hsorted : List.Pairwise itemLe (sortQueue st.sync_queue) :=
      sortQueue_sorted st.sync_queue
    have hnodL : ((sortQueue st.sync_queue).map SyncQueueItem.id).Nodup :=
      ((hperm.symm).map SyncQueueItem.id).nodup hnodup
    have hne : List.Pairwise (fun a b : SyncQueueItem => a.id ≠ b.id)
        (sortQueue st.sync_queue) := List.pairwise_map.mp hnodL
    exact (hsorted.and hne).imp (fun h => lt_of_le_of_ne h.1 h.2)

/-- Witness for C1 at a concrete three-entry queue across three tables. -/
theorem C1_full_drain_witness :
    ((w1St.sync_queue.map SyncQueueItem.id).Nodup ∧
      ∀ e ∈ sortQueue w1St.sync_queue, allOk e = ApplyOutcome.ok) ∧
    ((processQueue allOk "T" w1St).1.sync_queue = [] ∧
     (processQueue allOk "T" w1St).2 = sortQueue w1St.sync_queue ∧
     ((processQueue allOk "T" w1St).2).Perm w1St.sync_queue ∧
     List.Pairwise (fun a b => a.id < b.id) (processQueue allOk "T" w1St).2) :=
  ⟨⟨by decide, by decide⟩,
   processQueue_full_drain_ascending allOk "T" w1St (by decide) (by decide)⟩

/-- Claim C2: an entry is removed from the queue by a drain cycle exactly
when its remote apply was attempted and completed without error; entries
whose apply fails, or that were never reached, remain queued. -/
theorem entry_removed_iff_confirmed
    (outcome : SyncQueueItem → ApplyOutcome) (now : String) (st : EngineState)
    (item : SyncQueueItem)
    (hnodup : (st.sync_queue.map SyncQueueItem.id).Nodup)
    (hmem : item ∈ st.sync_queue) :
    item ∉ (processQueue outcome now st).1.sync_queue ↔
      item ∈ (processQueue outcome now st).2 ∧ outcome item = ApplyOutcome.ok := by
  have hperm := sortQueue_perm st.sync_queue
  rw [processQueue_eq, drainLoop_eq]
  have key1 : item ∉
      (commitAll now (okRun outcome (sortQueue st.sync_queue)) st).sync_queue ↔
      item.id ∈ (okRun outcome (sortQueue st.sync_queue)).map SyncQueueItem.id := by
    rw [commitAll_sync_queue]
    simp [List.mem_filter, hmem]
  have key2 : item.id ∈ (okRun outcome (sortQueue st.sync_queue)).map SyncQueueItem.id ↔
      item ∈ okRun outcome (sortQueue st.sync_queue) := by
    constructor
    · intro h
      obtain ⟨x, hxp, hxid⟩ := List.mem_map.mp h
      have hxq : x ∈ st.sync_queue :=
        hperm.mem_iff.mp (okRun_subset outcome (sortQueue st.sync_queue) hxp)
      have hx : x = item := List.inj_on_of_nodup_map hnodup hxq hmem hxid
      exact hx ▸ hxp
    · intro h
      exact List.mem_map.mpr ⟨item, h, rfl⟩
  have key3 : item ∈
        ([] ++ okRun outcome (sortQueue st.sync_queue) ++
          ((sortQueue st.sync_queue).drop
            (okRun outcome (sortQueue st.sync_queue)).length).take 1) ∧
        outcome item = ApplyOutcome.ok ↔
      item ∈ okRun outcome (sortQueue st.sync_queue) := by
    constructor
    · rintro ⟨hm, hok⟩
      simp only [List.nil_append, List.mem_append] at hm
      cases hm with
      | inl h => exact h
      | inr h => exact absurd hok (rest_head_not_ok outcome (sortQueue st.sync_queue) item h)
    · intro h
      refine ⟨?_, mem_okRun outcome h⟩
      simp only [List.nil_append, List.mem_append]
      exact Or.inl h
  rw [key1, key2, key3]

/-- Witness for C2 at a queue whose remote rejects entries from id 2 on:
the DELETE entry with id 3 is neither applied nor removed. -/
theorem C2_removed_iff_witness :
    ((w1St.sync_queue.map SyncQueueItem.id).Nodup ∧ w1C ∈ w1St.sync_queue) ∧
    (w1C ∉ (processQueue failFrom2 "T" w1St).1.sync_queue ↔
      w1C ∈ (processQueue failFrom2 "T" w1St).2 ∧ failFrom2 w1C = ApplyOutcome.ok) :=
  ⟨⟨by decide, by decide⟩,
   entry_removed_iff_confirmed failFrom2 "T" w1St w1C (by decide) (by decide)⟩

/-- Claim C3, code evaluated at the failing input: with entry A (id 1)
permanently failing and entry B (id 2) acceptable, any number of drain
cycles leaves the queue exactly as it was and only ever re-attempts A —
B is never applied and nothing is ever moved to a dead-letter set (the
code has no attempts counter and no dead-letter set at all). -/
theorem poison_entry_blocks_queue_forever :
    ∀ n : Nat, iterCycles cexPoisonOutcome "T" n cexSt3 =
      (cexSt3, List.replicate n cexA) := by
  have hstep : processQueue cexPoisonOutcome "T" cexSt3 = (cexSt3, [cexA]) := by decide
  intro n
  induction n with
  | zero => rfl
  | succ n ih =>
    simp only [iterCycles, hstep, ih, List.replicate_succ, List.singleton_append]

/-- Claim C4: when the first entry of a two-entry queue fails, the drain
cycle stops entirely at it: the second entry is never applied, the state
is unchanged and the queue still holds both entries. -/
theorem transient_failure_stops_cycle
    (A B : SyncQueueItem) (st : EngineState) (outcome : SyncQueueItem → ApplyOutcome)
    (now msg : String)
    (hq : st.sync_queue = [A, B]) (hid : A.id < B.id)
    (hA : outcome A = ApplyOutcome.errorResult msg) :
    processQueue outcome now st = (st, [A]) ∧
    B ∉ (processQueue outcome now st).2 ∧
    (processQueue outcome now st).1.sync_queue.length = 2 := by
  have hAB : B ≠ A := by
    intro h
    rw [h] at hid
    exact Nat.lt_irrefl A.id hid
  have hsort : sortQueue st.sync_queue = [A, B] := by
    rw [hq]
    apply List.Sorted.insertionSort_eq
    simp [List.sorted_cons, itemLe, Nat.le_of_lt hid]
  have hmain : processQueue outcome now st = (st, [A]) := by
    rw [processQueue_eq, hsort]
    simp only [drainLoop, hA]
    simp
  refine ⟨hmain, ?_, ?_⟩
  · rw [hmain]
    simp [hAB]
  · rw [hmain, hq]
    rfl

/-- Witness for C4 at a concrete two-entry queue where the first apply
fails with a network error. -/
theorem C4_transient_witness :
    (w4St.sync_queue = [w4A, w4B] ∧ w4A.id < w4B.id ∧
      w4Outcome w4A = ApplyOutcome.errorResult "TypeError: Failed to fetch") ∧
    (processQueue w4Outcome "T" w4St = (w4St, [w4A]) ∧
     w4B ∉ (processQueue w4Outcome "T" w4St).2 ∧
     (processQueue w4Outcome "T" w4St).1.sync_queue.length = 2) :=
  ⟨⟨rfl, by decide, by decide⟩,
   transient_failure_stops_cycle w4A w4B w4St w4Outcome "T" "TypeError: Failed to fetch"
     rfl (by decide) (by decide)⟩

/-- Claim C5 counterexample: while a performSync drain is in progress
(isSyncing is set), an enqueue-time trigger is NOT discarded — it starts a
second concurrent drain, because queueChange calls processQueue directly
without consulting the isSyncing guard. -/
theorem enqueue_trigger_bypasses_guard :
    triggerStart true TriggerKind.enqueueTime
        (triggerStart true TriggerKind.explicitCall ⟨false, 0⟩) ≠
      triggerStart true TriggerKind.explicitCall ⟨false, 0⟩ ∧
    (triggerStart true TriggerKind.enqueueTime
        (triggerStart true TriggerKind.explicitCall ⟨false, 0⟩)).activeDrains = 2 := by
  decide

/-- Claim C5 as amended: any trigger routed through performSync — online
transition, periodic tick, explicit call — that arrives while a drain is
in progress is discarded without effect; only the enqueue-time trigger
bypasses the guard. -/
theorem guarded_triggers_single_flight
    (online : Bool) (k : TriggerKind) (s : SyncSession)
    (hk : k ≠ TriggerKind.enqueueTime) (hs : s.isSyncing = true) :
    triggerStart online k s = s := by
  cases k with
  | enqueueTime => exact absurd rfl hk
  | onlineTransition => simp [triggerStart, viaPerformSync, hs]
  | periodicTick => simp [triggerStart, viaPerformSync, hs]
  | explicitCall => simp [triggerStart, viaPerformSync, hs]

/-- Witness for the amended C5: a periodic tick arriving mid-drain no-ops. -/
theorem C5_guarded_witness :
    (TriggerKind.periodicTick ≠ TriggerKind.enqueueTime ∧
      (SyncSession.mk true 1).isSyncing = true) ∧
    triggerStart true TriggerKind.periodicTick (SyncSession.mk true 1) =
      SyncSession.mk true 1 :=
  ⟨⟨by decide, rfl⟩,
   guarded_triggers_single_flight true TriggerKind.periodicTick
     (SyncSession.mk true 1) (by decide) rfl⟩

/-- Claim C6 counterexample: the drain cycle started by the enqueue-time
trigger in queueChange commits one entry yet invokes invalidateQueries
zero times, so not every entry-removing drain cycle notifies once. -/
theorem enqueue_cycle_commits_without_notify :
    cex6St.sync_queue.length = 1 ∧
    (enqueueTriggerCycle allOk "T" cex6St).1.sync_queue.length = 0 ∧
    (enqueueTriggerCycle allOk "T" cex6St).2.2 = 0 := by
  decide

/-- Claim C6 as amended: a drain cycle run through performSync invokes
invalidateQueries exactly once at the end, regardless of how many entries
it commits (never once per entry); the cycle started directly by the
enqueue-time trigger invokes it zero times. -/
theorem notify_once_per_perform_sync_cycle
    (outcome : SyncQueueItem → ApplyOutcome) (now : String) (st : EngineState) :
    (performSyncCycle outcome now st).2.2 = 1 ∧
    (enqueueTriggerCycle outcome now st).2.2 = 0 :=
  ⟨rfl, rfl⟩

/-- Claim C7: when durably recording the queue entry fails, queueChange
returns the failure to its caller (the awaited Dexie add rejection
propagates out of the enqueue call); the failure is never swallowed. -/
theorem enqueue_failure_propagates
    (msg : String) (online : Bool) (outcome : SyncQueueItem → ApplyOutcome)
    (nowMs : Nat) (nowIso : String) (t : TableName) (id : String)
    (op : Operation) (data : Payload) (st : EngineState) :
    queueChange (some msg) online outcome nowMs nowIso t id op data st =
      Except.error msg := rfl

/-- Claim C8: applying a queue entry to the remote store is idempotent —
re-applying an already-applied entry changes nothing and still succeeds,
and deleting an id absent from the remote store succeeds and leaves the
store unchanged. -/
theorem remote_apply_idempotent (s : Store) (e : SyncQueueItem) :
    remoteAdapterApply (remoteAdapterApply s e).2 e = remoteAdapterApply s e ∧
    (e.operation = Operation.DELETE → storeGet s (e.table, e.record_id) = none →
      remoteAdapterApply s e = (ApplyOutcome.ok, s)) := by
  constructor
  · cases hop : e.operation with
    | INSERT => simp [remoteAdapterApply, hop, remoteUpsert, storeSet_idem]
    | UPDATE => simp [remoteAdapterApply, hop, remoteUpsert, storeSet_idem]
    | DELETE => simp [remoteAdapterApply, hop, remoteDelete, storeDel_idem]
  · intro hop habs
    simp [remoteAdapterApply, hop, remoteDelete, storeDel_absent habs]

/-- Witness for C8: deleting an absent measurement succeeds and re-applying
the delete is a no-op. -/
theorem C8_idempotent_witness :
    (w8E.operation = Operation.DELETE ∧
      storeGet ([] : Store) (w8E.table, w8E.record_id) = none) ∧
    (remoteAdapterApply ([] : Store) w8E = (ApplyOutcome.ok, ([] : Store)) ∧
     remoteAdapterApply (remoteAdapterApply ([] : Store) w8E).2 w8E =
       remoteAdapterApply ([] : Store) w8E) :=
  ⟨⟨rfl, rfl⟩,
   ⟨(remote_apply_idempotent ([] : Store) w8E).2 rfl rfl,
    (remote_apply_idempotent ([] : Store) w8E).1⟩⟩

/-- Claim C9: the upsert payload is the enqueued snapshot with the amount
key removed and every other field unchanged; a DELETE sends only the table
and the record id. -/
theorem upsert_payload_cleaning (e : SyncQueueItem) :
    ((e.operation = Operation.INSERT ∨ e.operation = Operation.UPDATE) →
      remoteRequest e = RemoteCall.upsert e.table (cleanPayload e.payload)) ∧
    lookupField (cleanPayload e.payload) "amount" = none ∧
    (∀ k : String, k ≠ "amount" →
      lookupField (cleanPayload e.payload) k = lookupField e.payload k) ∧
    (e.operation = Operation.DELETE →
      remoteRequest e = RemoteCall.delete e.table e.record_id) := by
  refine ⟨?_, ?_, ?_, ?_⟩
  · rintro (h | h) <;> simp [remoteRequest, h]
  · exact lookupField_filter_self "amount" e.payload
  · intro k hk
    exact lookupField_filter_other "amount" k hk e.payload
  · intro h
    simp [remoteRequest, h]

/-- Witness for C9 at the bill_items UPDATE entry whose snapshot carries
the generated amount column. -/
theorem C9_cleaning_witness :
    ((w1B.operation = Operation.INSERT ∨ w1B.operation = Operation.UPDATE) ∧
      ("rate" : String) ≠ "amount") ∧
    (remoteRequest w1B = RemoteCall.upsert w1B.table (cleanPayload w1B.payload) ∧
     lookupField (cleanPayload w1B.payload) "amount" = none ∧
     lookupField (cleanPayload w1B.payload) "rate" = lookupField w1B.payload "rate") :=
  ⟨⟨Or.inr rfl, by decide⟩,
   ⟨(upsert_payload_cleaning w1B).1 (Or.inr rfl),
    (upsert_payload_cleaning w1B).2.1,
    (upsert_payload_cleaning w1B).2.2.1 "rate" (by decide)⟩⟩

/-- Claim C10: on a confirmed apply the dispatcher stamps synced_at with
the current timestamp on the local row keyed by (table, record id), and
changes nothing else: every other local row is untouched and every other
field of the stamped row keeps its value. -/
theorem success_updates_synced_at_only
    (st : EngineState) (e : SyncQueueItem) (now : String) :
    (stepSuccess st e now).localStore =
      updateSyncedAt st.localStore e.table e.record_id now ∧
    (∀ rec : Payload, storeGet st.localStore (e.table, e.record_id) = some rec →
      storeGet (stepSuccess st e now).localStore (e.table, e.record_id) =
        some (setField rec "synced_at" now)) ∧
    (∀ key : TableName × String, key ≠ (e.table, e.record_id) →
      storeGet (stepSuccess st e now).localStore key = storeGet st.localStore key) ∧
    (∀ rec : Payload, lookupField (setField rec "synced_at" now) "synced_at" = some now) ∧
    (∀ (rec : Payload) (k : String), k ≠ "synced_at" →
      lookupField (setField rec "synced_at" now) k = lookupField rec k) := by
  refine ⟨rfl, ?_, ?_, ?_, ?_⟩
  · intro rec h
    exact storeGet_updateSyncedAt_same e.table e.record_id now rec st.localStore h
  · intro key hkey
    exact storeGet_updateSyncedAt_other e.table e.record_id now key hkey st.localStore
  · intro rec
    exact lookupField_setField_same rec "synced_at" now
  · intro rec k hk
    exact lookupField_setField_other rec "synced_at" now k hk

/-- Witness for C10 at a concrete local row for the updated project. -/
theorem C10_synced_at_witness :
    (storeGet st10.localStore (e10.table, e10.record_id) = some rec10 ∧
      (TableName.bill_items, "z") ≠ (e10.table, e10.record_id) ∧
      ("name" : String) ≠ "synced_at") ∧
    (storeGet (stepSuccess st10 e10 "NOW").localStore (e10.table, e10.record_id) =
        some (setField rec10 "synced_at" "NOW") ∧
     storeGet (stepSuccess st10 e10 "NOW").localStore (TableName.bill_items, "z") =
        storeGet st10.localStore (TableName.bill_items, "z") ∧
     lookupField (setField rec10 "synced_at" "NOW") "synced_at" = some "NOW" ∧
     lookupField (setField rec10 "synced_at" "NOW") "name" = lookupField rec10 "name") :=
  ⟨⟨by decide, by decide, by decide⟩,
   ⟨(success_updates_synced_at_only st10 e10 "NOW").2.1 rec10 (by decide),
    (success_updates_synced_at_only st10 e10 "NOW").2.2.1 (TableName.bill_items, "z") (by decide),
    (success_updates_synced_at_only st10 e10 "NOW").2.2.2.1 rec10,
    (success_updates_synced_at_only st10 e10 "NOW").2.2.2.2 rec10 "name" (by decide)⟩⟩

end QSVault
